import Mathlib

/-!
Shallow embedding of the annotation tool (`src/App.tsx` / `src/unnamed/part_000`
and `src/components/ImageAnnotation.tsx`, the variant carrying the coordinate
origin, overlay and filename-link features).

JS numbers are modelled as `ℚ`; `Math.round` is Mathlib's `round` (both compute
`⌊x + 1/2⌋`).  JS `null`/`undefined` fields are modelled as `Option`; a JS
truthiness test on a string distinguishes `""` from other strings and is
modelled by `strTruthy` where the tested string is data (file names), while
null-checks on generated ids (always of the non-empty form `pos-...`) are
modelled as `Option.isSome` matches.
-/

/-- Source `type ShapeType = "RECTANGLE" | "CIRCLE" | "TRAPEZOID"` (App.tsx). -/
inductive ShapeType
  | RECTANGLE
  | CIRCLE
  | TRAPEZOID
deriving DecidableEq, Repr

/-- Source `type CoordinateOrigin = "TOP_LEFT" | ... | "CENTER"` (App.tsx). -/
inductive CoordinateOrigin
  | TOP_LEFT
  | TOP_RIGHT
  | BOTTOM_LEFT
  | BOTTOM_RIGHT
  | CENTER
deriving DecidableEq, Repr

/-- An `{x, y}` pair of JS numbers. -/
structure Point where
  x : ℚ
  y : ℚ
deriving DecidableEq, Repr

/-- Source `imageDimensions : { width, height }` (App.tsx / ImageAnnotation.tsx). -/
structure Dimensions where
  width : ℚ
  height : ℚ
deriving DecidableEq, Repr

/-- Source `interface Position` (App.tsx): a committed annotated region. -/
structure Position where
  id : String
  x : ℚ
  y : ℚ
  width : ℚ
  height : ℚ
  shape : ShapeType
  overlayImage : Option String := none
  overlayFileName : Option String := none
  showFileName : Bool := false
  fileNamePositionId : Option String := none
deriving DecidableEq, Repr

/-- JS truthiness of a nullable string: `null`/`undefined` and `""` are falsy. -/
def strTruthy : Option String → Bool
  | none => false
  | some s => !(s == "")

/-- JS `x || null` on a nullable string: a falsy value collapses to `null`. -/
def orNull (o : Option String) : Option String :=
  match o with
  | none => none
  | some s => if s == "" then none else some s

/-- Source `transformCoordinate` (App.tsx lines 131-150 and ImageAnnotation.tsx lines
605-627, identical logic): maps an image-intrinsic point into the selected
export origin; identity while `imageDimensions` is null. -/
def transformCoordinate (imageDimensions : Option Dimensions)
    (coordinateOrigin : CoordinateOrigin) (x y : ℚ) : Point :=
  match imageDimensions with
  | none => ⟨x, y⟩
  | some d =>
    match coordinateOrigin with
    | .TOP_LEFT => ⟨x, y⟩
    | .TOP_RIGHT => ⟨d.width - x, y⟩
    | .BOTTOM_LEFT => ⟨x, d.height - y⟩
    | .BOTTOM_RIGHT => ⟨d.width - x, d.height - y⟩
    | .CENTER => ⟨x - d.width / 2, y - d.height / 2⟩

/-- Componentwise `Math.round` of a point, done at the export/log boundary. -/
def roundPt (p : Point) : ℤ × ℤ :=
  (round p.x, round p.y)

/-- The per-shape labeled point set of the geometry engine: the corner/anchor
computation of the positions table and shape-creation logging
(ImageAnnotation.tsx, RECTANGLE corners / CIRCLE center+radius point /
TRAPEZOID corners with `topWidth = 0.8 * width` centered). -/
def verticesOf (pos : Position) : List Point :=
  match pos.shape with
  | .RECTANGLE =>
    [⟨pos.x, pos.y⟩,
     ⟨pos.x + pos.width, pos.y⟩,
     ⟨pos.x + pos.width, pos.y + pos.height⟩,
     ⟨pos.x, pos.y + pos.height⟩]
  | .CIRCLE =>
    let centerX := pos.x + pos.width / 2
    let centerY := pos.y + pos.height / 2
    let radius : ℚ := (round (max pos.width pos.height / 2) : ℤ)
    [⟨centerX, centerY⟩, ⟨centerX + radius, centerY⟩]
  | .TRAPEZOID =>
    let topWidth := pos.width * 0.8
    let topOffset := (pos.width - topWidth) / 2
    [⟨pos.x + topOffset, pos.y⟩,
     ⟨pos.x + topOffset + topWidth, pos.y⟩,
     ⟨pos.x + pos.width, pos.y + pos.height⟩,
     ⟨pos.x, pos.y + pos.height⟩]

/-- The `coordinates` array built per position by `handleSavePositions`
(App.tsx lines 163-194): RECTANGLE and TRAPEZOID emit the transformed, rounded
top-left and bottom-right; CIRCLE emits the transformed, rounded center and the
untransformed scalar radius as `{x: radius, y: 0}`. -/
def exportCoordinates (dims : Option Dimensions) (origin : CoordinateOrigin)
    (pos : Position) : List (ℤ × ℤ) :=
  match pos.shape with
  | .RECTANGLE =>
    let tl := transformCoordinate dims origin pos.x pos.y
    let br := transformCoordinate dims origin (pos.x + pos.width) (pos.y + pos.height)
    [(round tl.x, round tl.y), (round br.x, round br.y)]
  | .CIRCLE =>
    let rawCenterX := pos.x + pos.width / 2
    let rawCenterY := pos.y + pos.height / 2
    let center := transformCoordinate dims origin rawCenterX rawCenterY
    let radius := round (max pos.width pos.height / 2)
    [(round center.x, round center.y), (radius, 0)]
  | .TRAPEZOID =>
    let topWidth := pos.width * 0.8
    let topOffset := (pos.width - topWidth) / 2
    let tl := transformCoordinate dims origin (pos.x + topOffset) pos.y
    let br := transformCoordinate dims origin (pos.x + pos.width) (pos.y + pos.height)
    [(round tl.x, round tl.y), (round br.x, round br.y)]

/-- One entry of the `databaseFormat` array: `{coordinates, shape}`. -/
def databaseFormat (dims : Option Dimensions) (origin : CoordinateOrigin)
    (positions : List Position) : List (List (ℤ × ℤ) × ShapeType) :=
  positions.map fun pos => (exportCoordinates dims origin pos, pos.shape)

/-- App-level state relevant to export (App.tsx `useState` hooks). -/
structure AppState where
  positions : List Position
  imageDimensions : Option Dimensions
  coordinateOrigin : CoordinateOrigin
deriving DecidableEq, Repr

/-- Source `setCoordinateOrigin` (the origin `<select>` handler): writes only the
`coordinateOrigin` field. -/
def setCoordinateOrigin (s : AppState) (o : CoordinateOrigin) : AppState :=
  { s with coordinateOrigin := o }

/-- Source `handleSavePositions` (App.tsx lines 156-229): aborts with no payload on an
empty list, otherwise builds `databaseFormat` for display; it calls no state
setter, so the state component of the result is the input state. -/
def handleSavePositions (s : AppState) :
    AppState × Option (List (List (ℤ × ℤ) × ShapeType)) :=
  if s.positions.isEmpty then (s, none)
  else (s, some (databaseFormat s.imageDimensions s.coordinateOrigin s.positions))

/- Sample inputs for concrete evaluations. -/

/-- A committed rectangle with box `{x:0, y:0, width:10, height:10}`. -/
def rectSample : Position :=
  { id := "r1", x := 0, y := 0, width := 10, height := 10, shape := .RECTANGLE }

/-- A committed circle with box `{x:0, y:0, width:10, height:20}`. -/
def circleSample : Position :=
  { id := "c1", x := 0, y := 0, width := 10, height := 20, shape := .CIRCLE }

/-- A committed trapezoid with box `{x:0, y:0, width:10, height:10}`. -/
def trapSample : Position :=
  { id := "t1", x := 0, y := 0, width := 10, height := 10, shape := .TRAPEZOID }

/-- The interactive state of the component (ImageAnnotation.tsx `useState`
hooks). -/
structure AnnotState where
  scale : ℚ
  panStart : Option Point
  panOffset : Point
  isDrawing : Bool
  drawStart : Option Point
  currentRect : Option Position
  selectedPosition : Option String
  selectedShape : ShapeType
  isSelectingFileNamePosition : Bool
  pendingFileNameLinkId : Option String
  positions : List Position
deriving DecidableEq, Repr

/-- Source `getImageCoordinates` (ImageAnnotation.tsx lines 632-654): image-intrinsic
point of a client point, relative to the rendered image element's bounding box;
`imageRect` is the box's top-left corner, `none` while either ref is null. -/
def getImageCoordinates (imageRect : Option Point) (scale : ℚ)
    (clientX clientY : ℚ) : Option Point :=
  match imageRect with
  | none => none
  | some r => some ⟨(clientX - r.x) / scale, (clientY - r.y) / scale⟩

/-- The inclusive bounding-box containment test used for hit-testing
(`handleMouseDown`'s `positions.find(...)` predicate). -/
def containsPoint (pos : Position) (p : Point) : Bool :=
  decide (pos.x ≤ p.x) && decide (p.x ≤ pos.x + pos.width) &&
  decide (pos.y ≤ p.y) && decide (p.y ≤ pos.y + pos.height)

/-- Source `handleMouseDown` (ImageAnnotation.tsx lines 657-685): on a primary-button
press, select the first committed position whose box contains the point, else
start a draw gesture. -/
def handleMouseDown (s : AnnotState) (imageRect : Option Point)
    (button : ℕ) (clientX clientY : ℚ) : AnnotState :=
  if button ≠ 0 then s
  else
    match getImageCoordinates imageRect s.scale clientX clientY with
    | none => s
    | some coords =>
      match s.positions.find? (fun pos => containsPoint pos coords) with
      | some clickedPosition =>
        { s with selectedPosition := some clickedPosition.id }
      | none =>
        { s with isDrawing := true, drawStart := some coords,
                 selectedPosition := none }

/-- Source `handleMouseMove` (ImageAnnotation.tsx lines 688-710): while drawing,
recompute the candidate box as the axis-aligned bounding box of `drawStart` and
the current pointer. -/
def handleMouseMove (s : AnnotState) (imageRect : Option Point)
    (clientX clientY : ℚ) : AnnotState :=
  match s.isDrawing, s.drawStart with
  | true, some ds =>
    match getImageCoordinates imageRect s.scale clientX clientY with
    | none => s
    | some coords =>
      { s with currentRect := some {
          id := "temp",
          x := min ds.x coords.x,
          y := min ds.y coords.y,
          width := |coords.x - ds.x|,
          height := |coords.y - ds.y|,
          shape := s.selectedShape } }
  | _, _ => s

/-- Source `handleMouseUp` (ImageAnnotation.tsx lines 713-799): finish the draw
gesture; commit the candidate box as a new position (with the fresh generated
id) only when both sides exceed 5 image-space units. -/
def handleMouseUp (freshId : String) (s : AnnotState) : AnnotState :=
  match s.isDrawing, s.currentRect, s.drawStart with
  | true, some currentRect, some _ =>
    let positions' :=
      if currentRect.width > 5 ∧ currentRect.height > 5 then
        s.positions ++
          [{ id := freshId,
             x := currentRect.x, y := currentRect.y,
             width := currentRect.width, height := currentRect.height,
             shape := s.selectedShape }]
      else s.positions
    { s with positions := positions', isDrawing := false,
             drawStart := none, currentRect := none }
  | _, _, _ => s

/-- Source `handlePanStart` (ImageAnnotation.tsx lines 802-811): middle button or
Ctrl+left records the pan anchor. -/
def handlePanStart (s : AnnotState) (button : ℕ) (ctrlKey : Bool)
    (clientX clientY : ℚ) : AnnotState :=
  if button = 1 ∨ (button = 0 ∧ ctrlKey) then
    { s with panStart := some ⟨clientX - s.panOffset.x, clientY - s.panOffset.y⟩ }
  else s

/-- Source `handlePanMove` (ImageAnnotation.tsx lines 813-823). -/
def handlePanMove (s : AnnotState) (clientX clientY : ℚ) : AnnotState :=
  match s.panStart with
  | some panStart =>
    { s with panOffset := ⟨clientX - panStart.x, clientY - panStart.y⟩ }
  | none => s

/-- Source `handlePanEnd` (ImageAnnotation.tsx lines 825-827): clears the pan anchor. -/
def handlePanEnd (s : AnnotState) : AnnotState :=
  { s with panStart := none }

/-- Source `handleWheel` (ImageAnnotation.tsx lines 830-834): one wheel tick
multiplies the scale by 0.9 (`deltaY > 0`) or 1.1 and clamps to `[0.5, 5]`. -/
def handleWheel (s : AnnotState) (deltaY : ℚ) : AnnotState :=
  let delta : ℚ := if deltaY > 0 then 0.9 else 1.1
  { s with scale := max 0.5 (min 5 (s.scale * delta)) }

/-- The Zoom Out button (ImageAnnotation.tsx line 1069). -/
def zoomOutButton (s : AnnotState) : AnnotState :=
  { s with scale := max 0.5 (s.scale - 0.1) }

/-- The Zoom In button (ImageAnnotation.tsx line 1073). -/
def zoomInButton (s : AnnotState) : AnnotState :=
  { s with scale := min 5 (s.scale + 0.1) }

/-- The Reset Zoom button (ImageAnnotation.tsx line 1076). -/
def resetZoomButton (s : AnnotState) : AnnotState :=
  { s with scale := 1 }

/-- The keys the global `keydown` listener inspects. -/
inductive Key
  | Delete
  | Backspace
  | Escape
  | Other
deriving DecidableEq, Repr

/-- Source `handleKeyDown` (ImageAnnotation.tsx lines 838-849): Delete/Backspace with
a selection removes the selected position (by id) and clears the selection;
Escape aborts filename-link selection mode. -/
def handleKeyDown (s : AnnotState) (key : Key) : AnnotState :=
  let s1 :=
    match key with
    | .Delete | .Backspace =>
      match s.selectedPosition with
      | some sel =>
        { s with positions := s.positions.filter (fun p => p.id != sel),
                 selectedPosition := none }
      | none => s
    | _ => s
  match key with
  | .Escape =>
    { s1 with isSelectingFileNamePosition := false,
              pendingFileNameLinkId := none }
  | _ => s1

/-- Source `handleToggleFileName` (ImageAnnotation.tsx lines 897-915): with an
overlay-bearing selection whose filename display is off, enter link-target
selection mode; with it on, turn it off and clear the link. -/
def handleToggleFileName (s : AnnotState) : AnnotState :=
  match s.selectedPosition with
  | none => s
  | some sel =>
    match s.positions.find? (fun p => p.id == sel) with
    | none => s
    | some position =>
      if position.showFileName then
        { s with positions := s.positions.map (fun pos =>
            if pos.id == sel then
              { pos with showFileName := false, fileNamePositionId := none }
            else pos) }
      else
        { s with isSelectingFileNamePosition := true,
                 pendingFileNameLinkId := some sel }

/-- Source `handlePositionClick` (ImageAnnotation.tsx lines 918-932): in link-target
selection mode, point the pending source's filename display at the clicked
position; otherwise select the clicked position. -/
def handlePositionClick (s : AnnotState) (positionId : String) : AnnotState :=
  match s.isSelectingFileNamePosition, s.pendingFileNameLinkId with
  | true, some pendingFileNameLinkId =>
    { s with
        positions := s.positions.map (fun pos =>
          if pos.id == pendingFileNameLinkId then
            { pos with showFileName := true,
                       fileNamePositionId := some positionId }
          else pos),
        isSelectingFileNamePosition := false,
        pendingFileNameLinkId := none }
  | _, _ => { s with selectedPosition := some positionId }

/-- Source `getLinkedFileName` (ImageAnnotation.tsx lines 938-946): the filename
displayed inside position `positionId` — the `overlayFileName` of the first
position whose filename display targets it (`linking?.overlayFileName || null`). -/
def getLinkedFileName (positions : List Position) (positionId : String) :
    Option String :=
  orNull ((positions.find? (fun p =>
    p.showFileName && (p.fileNamePositionId == some positionId) &&
    strTruthy p.overlayFileName)).bind (fun p => p.overlayFileName))

/-- Event dispatch for a native `mouseup` over the container (ImageAnnotation.tsx
lines 1117-1127): the capture-phase `onMouseUpCapture={handlePanEnd}` runs
before the bubble-phase `onMouseUp={handleMouseUp}`. -/
def dispatchMouseUp (freshId : String) (s : AnnotState) : AnnotState :=
  handleMouseUp freshId (handlePanEnd s)

/-- Event dispatch for `mouseleave` over the container: the JSX binds only
`onMouseLeave={handleMouseUp}`; no capture-phase pan handler is attached. -/
def dispatchMouseLeave (freshId : String) (s : AnnotState) : AnnotState :=
  handleMouseUp freshId s

/-- The component's initial interactive state (the `useState` initializers). -/
def idleState : AnnotState :=
  { scale := 1, panStart := none, panOffset := ⟨0, 0⟩, isDrawing := false,
    drawStart := none, currentRect := none, selectedPosition := none,
    selectedShape := .RECTANGLE, isSelectingFileNamePosition := false,
    pendingFileNameLinkId := none, positions := [] }

/-- A state in the middle of a draw gesture started at image point (10, 10),
with candidate box `{x:5, y:5, width:5, height:5}`. -/
def drawingState : AnnotState :=
  { idleState with
      isDrawing := true,
      drawStart := some ⟨10, 10⟩,
      currentRect := some { id := "temp", x := 5, y := 5, width := 5,
                            height := 5, shape := .RECTANGLE } }

/-- A state in the middle of a pan gesture (pan anchor recorded). -/
def panningState : AnnotState :=
  { idleState with panStart := some ⟨3, 4⟩ }

/-- A committed position with an uploaded overlay named `photo.png`. -/
def posA : Position :=
  { id := "a", x := 0, y := 0, width := 10, height := 10, shape := .RECTANGLE,
    overlayImage := some "blobA", overlayFileName := some "photo.png" }

/-- A second committed position, with no overlay. -/
def posB : Position :=
  { id := "b", x := 50, y := 50, width := 10, height := 10, shape := .RECTANGLE }

/-- An idle state holding `posA` and `posB` with `posA` selected. -/
def linkState : AnnotState :=
  { idleState with selectedPosition := some "a", positions := [posA, posB] }

/-- An idle state holding `posA` and `posB` with `posB` selected. -/
def delState : AnnotState :=
  { idleState with selectedPosition := some "b", positions := [posA, posB] }

/-! ## Theorems -/

/-- C10: while the image's intrinsic dimensions are not yet known
(`imageDimensions` is null), `transformCoordinate` returns the input point
unchanged for every origin mode, so every mode behaves like `TOP_LEFT`
identity before the image loads. -/
theorem transformCoordinate_identity_before_load (x y : ℚ)
    (origin : CoordinateOrigin) :
    transformCoordinate none origin x y = ⟨x, y⟩ := rfl

/-- C1: with image dimensions `(W, H)`, the export origin transform maps
`(x, y)` per mode as `TOP_LEFT ↦ (x, y)`, `TOP_RIGHT ↦ (W - x, y)`,
`BOTTOM_LEFT ↦ (x, H - y)`, `BOTTOM_RIGHT ↦ (W - x, H - y)`,
`CENTER ↦ (x - W/2, y - H/2)`; and the export applies it independently to each
exported point of a rectangle (each exported corner is the transform of that
raw corner), not by transforming the box once and recomputing corners — in the
concrete `BOTTOM_RIGHT` instance the output is the per-point `[(100,100),
(90,90)]`, not the recomputed-box `[(90,90), (100,100)]`. -/
theorem transformCoordinate_modes (x y W H : ℚ) (origin : CoordinateOrigin)
    (pos : Position) :
    transformCoordinate (some ⟨W, H⟩) .TOP_LEFT x y = ⟨x, y⟩ ∧
    transformCoordinate (some ⟨W, H⟩) .TOP_RIGHT x y = ⟨W - x, y⟩ ∧
    transformCoordinate (some ⟨W, H⟩) .BOTTOM_LEFT x y = ⟨x, H - y⟩ ∧
    transformCoordinate (some ⟨W, H⟩) .BOTTOM_RIGHT x y = ⟨W - x, H - y⟩ ∧
    transformCoordinate (some ⟨W, H⟩) .CENTER x y = ⟨x - W / 2, y - H / 2⟩ ∧
    (pos.shape = .RECTANGLE →
      exportCoordinates (some ⟨W, H⟩) origin pos =
        [roundPt (transformCoordinate (some ⟨W, H⟩) origin pos.x pos.y),
         roundPt (transformCoordinate (some ⟨W, H⟩) origin
           (pos.x + pos.width) (pos.y + pos.height))]) ∧
    exportCoordinates (some ⟨100, 100⟩) .BOTTOM_RIGHT rectSample =
      [(100, 100), (90, 90)] ∧
    ([((100 : ℤ), (100 : ℤ)), (90, 90)] : List (ℤ × ℤ)) ≠
      [(90, 90), (100, 100)] := by
  refine ⟨rfl, rfl, rfl, rfl, rfl, ?_, ?_, by decide⟩
  · intro h
    rcases pos with ⟨pid, px, py, pw, ph, psh, poi, pofn, psf, pfn⟩
    dsimp only at h
    subst h
    rfl
  · norm_num [exportCoordinates, transformCoordinate, rectSample, round_eq]

/-- Witness for `transformCoordinate_modes` at `x = 10`, `y = 20`,
`W = H = 100`, `origin = TOP_LEFT`, `pos = rectSample`. -/
theorem transformCoordinate_modes_witness :
    transformCoordinate (some ⟨100, 100⟩) .TOP_RIGHT 10 20 = ⟨100 - 10, 20⟩ ∧
    exportCoordinates (some ⟨100, 100⟩) .TOP_LEFT rectSample =
      [roundPt (transformCoordinate (some ⟨100, 100⟩) .TOP_LEFT
        rectSample.x rectSample.y),
       roundPt (transformCoordinate (some ⟨100, 100⟩) .TOP_LEFT
        (rectSample.x + rectSample.width) (rectSample.y + rectSample.height))] :=
  ⟨(transformCoordinate_modes 10 20 100 100 .TOP_LEFT rectSample).2.1,
   (transformCoordinate_modes 10 20 100 100 .TOP_LEFT rectSample).2.2.2.2.2.1 rfl⟩

/-- C7: from any scale in `[0.5, 5]`, every zoom operation yields a scale in
`[0.5, 5]`: a wheel tick multiplies by 1.1, or by 0.9 when `deltaY > 0`, and
clamps to `[0.5, 5]`; the zoom-out button subtracts 0.1 clamped below at 0.5;
the zoom-in button adds 0.1 clamped above at 5; reset sets the scale to 1. -/
theorem scale_clamp_invariant (s : AnnotState) (deltaY : ℚ)
    (h1 : 0.5 ≤ s.scale) (h2 : s.scale ≤ 5) :
    (0.5 ≤ (handleWheel s deltaY).scale ∧ (handleWheel s deltaY).scale ≤ 5) ∧
    (deltaY > 0 →
      (handleWheel s deltaY).scale = max 0.5 (min 5 (s.scale * 0.9))) ∧
    (¬ deltaY > 0 →
      (handleWheel s deltaY).scale = max 0.5 (min 5 (s.scale * 1.1))) ∧
    ((zoomOutButton s).scale = max 0.5 (s.scale - 0.1) ∧
      0.5 ≤ (zoomOutButton s).scale ∧ (zoomOutButton s).scale ≤ 5) ∧
    ((zoomInButton s).scale = min 5 (s.scale + 0.1) ∧
      0.5 ≤ (zoomInButton s).scale ∧ (zoomInButton s).scale ≤ 5) ∧
    ((resetZoomButton s).scale = 1 ∧
      0.5 ≤ (resetZoomButton s).scale ∧ (resetZoomButton s).scale ≤ 5) := by
  have hw : (handleWheel s deltaY).scale =
      max 0.5 (min 5 (s.scale * (if deltaY > 0 then (0.9 : ℚ) else 1.1))) := rfl
  refine ⟨⟨?_, ?_⟩, ?_, ?_, ⟨rfl, ?_, ?_⟩, ⟨rfl, ?_, ?_⟩, rfl,
    by norm_num [resetZoomButton], by norm_num [resetZoomButton]⟩
  · rw [hw]; exact le_max_left _ _
  · rw [hw]; exact max_le (by norm_num) (min_le_left _ _)
  · intro h; rw [hw, if_pos h]
  · intro h; rw [hw, if_neg h]
  · exact le_max_left _ _
  · exact max_le (by norm_num) (by linarith)
  · exact le_min (by norm_num) (by linarith)
  · exact min_le_left _ _

/-- Witness for `scale_clamp_invariant` at the initial state (scale 1) and a
zoom-out wheel tick. -/
theorem scale_clamp_invariant_witness :
    ((0.5 : ℚ) ≤ idleState.scale ∧ idleState.scale ≤ 5) ∧
    (0.5 ≤ (handleWheel idleState 1).scale ∧ (handleWheel idleState 1).scale ≤ 5) := by
  have h := scale_clamp_invariant idleState 1 (by norm_num [idleState]) (by norm_num [idleState])
  exact ⟨⟨by norm_num [idleState], by norm_num [idleState]⟩, h.1⟩

/-- C8: changing the selected coordinate origin changes only the export
output: it leaves every stored position (and the stored image dimensions)
untouched, the export operation returns its input state unmodified, and the
export payload is the pure function `databaseFormat` of the stored positions,
the image dimensions and the chosen origin. -/
theorem origin_change_only_affects_export (s : AppState) (o : CoordinateOrigin) :
    (setCoordinateOrigin s o).positions = s.positions ∧
    (setCoordinateOrigin s o).imageDimensions = s.imageDimensions ∧
    (handleSavePositions (setCoordinateOrigin s o)).1 = setCoordinateOrigin s o ∧
    (handleSavePositions (setCoordinateOrigin s o)).1.positions = s.positions ∧
    (handleSavePositions (setCoordinateOrigin s o)).2 =
      (if s.positions.isEmpty then none
       else some (databaseFormat s.imageDimensions o s.positions)) := by
  refine ⟨rfl, rfl, ?_, ?_, ?_⟩ <;>
    by_cases hc : s.positions.isEmpty <;>
      simp [handleSavePositions, setCoordinateOrigin, hc]

/-- C2 counterexample: for the rectangle with box `{x:0, y:0, width:10,
height:10}` under the `TOP_LEFT` origin, the export emits only the two points
`[(0,0), (10,10)]`, not the geometry engine's four-corner list
`[(0,0), (10,0), (10,10), (0,10)]` — so the exported points do not equal the
claimed full corner set. -/
theorem export_not_full_corner_list :
    exportCoordinates (some ⟨100, 100⟩) .TOP_LEFT rectSample = [(0, 0), (10, 10)] ∧
    (verticesOf rectSample).map roundPt = [(0, 0), (10, 0), (10, 10), (0, 10)] ∧
    exportCoordinates (some ⟨100, 100⟩) .TOP_LEFT rectSample ≠
      (verticesOf rectSample).map roundPt := by
  have h1 : exportCoordinates (some ⟨100, 100⟩) .TOP_LEFT rectSample =
      [(0, 0), (10, 10)] := by
    norm_num [exportCoordinates, transformCoordinate, rectSample, round_eq]
  have h2 : (verticesOf rectSample).map roundPt =
      [(0, 0), (10, 0), (10, 10), (0, 10)] := by
    norm_num [verticesOf, rectSample, roundPt, round_eq]
  exact ⟨h1, h2, by rw [h1, h2]; decide⟩

/-- C2 (amended): the export emits, per shape, the 2-point minimal variant of
the geometry engine's point set: RECTANGLE emits the transformed top-left
`(x, y)` and bottom-right `(x+w, y+h)` (the first and third geometry-engine
corners); CIRCLE emits the transformed center `(x+w/2, y+h/2)` and the scalar
radius `round(max(w,h)/2)` as `(radius, 0)`, never origin-transformed; and
TRAPEZOID emits the transformed top-left `(x+topOffset, y)` with
`topOffset = (w - 0.8*w)/2` and bottom-right `(x+w, y+h)`.  Concretely, the
circle box `{0,0,10,20}` exports center `(5,10)` and radius `10`, and the
trapezoid box `{0,0,10,10}` has geometry-engine top edge `(1,0)–(9,0)` and
bottom corners `(10,10)`, `(0,10)`, of which `(1,0)` and `(10,10)` are
exported. -/
theorem export_matches_geometry_minimal (dims : Option Dimensions)
    (origin : CoordinateOrigin) (pos : Position) :
    (pos.shape = .RECTANGLE →
      verticesOf pos =
        [⟨pos.x, pos.y⟩, ⟨pos.x + pos.width, pos.y⟩,
         ⟨pos.x + pos.width, pos.y + pos.height⟩,
         ⟨pos.x, pos.y + pos.height⟩] ∧
      exportCoordinates dims origin pos =
        [roundPt (transformCoordinate dims origin pos.x pos.y),
         roundPt (transformCoordinate dims origin
           (pos.x + pos.width) (pos.y + pos.height))]) ∧
    (pos.shape = .CIRCLE →
      exportCoordinates dims origin pos =
        [roundPt (transformCoordinate dims origin
           (pos.x + pos.width / 2) (pos.y + pos.height / 2)),
         (round (max pos.width pos.height / 2), 0)]) ∧
    (pos.shape = .TRAPEZOID →
      verticesOf pos =
        [⟨pos.x + (pos.width - pos.width * 0.8) / 2, pos.y⟩,
         ⟨pos.x + (pos.width - pos.width * 0.8) / 2 + pos.width * 0.8, pos.y⟩,
         ⟨pos.x + pos.width, pos.y + pos.height⟩,
         ⟨pos.x, pos.y + pos.height⟩] ∧
      exportCoordinates dims origin pos =
        [roundPt (transformCoordinate dims origin
           (pos.x + (pos.width - pos.width * 0.8) / 2) pos.y),
         roundPt (transformCoordinate dims origin
           (pos.x + pos.width) (pos.y + pos.height))]) ∧
    exportCoordinates none .TOP_LEFT circleSample = [(5, 10), (10, 0)] ∧
    exportCoordinates none .TOP_LEFT trapSample = [(1, 0), (10, 10)] ∧
    verticesOf trapSample = [⟨1, 0⟩, ⟨9, 0⟩, ⟨10, 10⟩, ⟨0, 10⟩] := by
  refine ⟨?_, ?_, ?_, ?_, ?_, ?_⟩
  · intro h
    rcases pos with ⟨pid, px, py, pw, ph, psh, poi, pofn, psf, pfn⟩
    dsimp only at h; subst h
    exact ⟨rfl, rfl⟩
  · intro h
    rcases pos with ⟨pid, px, py, pw, ph, psh, poi, pofn, psf, pfn⟩
    dsimp only at h; subst h
    rfl
  · intro h
    rcases pos with ⟨pid, px, py, pw, ph, psh, poi, pofn, psf, pfn⟩
    dsimp only at h; subst h
    exact ⟨rfl, rfl⟩
  · norm_num [exportCoordinates, transformCoordinate, circleSample, round_eq]
  · norm_num [exportCoordinates, transformCoordinate, trapSample, round_eq]
  · norm_num [verticesOf, trapSample]

/-- Witness for `export_matches_geometry_minimal` at the circle sample under
the `BOTTOM_RIGHT` origin with image dimensions `100 × 100`. -/
theorem export_matches_geometry_minimal_witness :
    exportCoordinates (some ⟨100, 100⟩) .BOTTOM_RIGHT circleSample =
      [roundPt (transformCoordinate (some ⟨100, 100⟩) .BOTTOM_RIGHT
         (circleSample.x + circleSample.width / 2)
         (circleSample.y + circleSample.height / 2)),
       (round (max circleSample.width circleSample.height / 2), 0)] :=
  (export_matches_geometry_minimal (some ⟨100, 100⟩) .BOTTOM_RIGHT
    circleSample).2.1 rfl

/-- C4 counterexample: in a state with an active pan anchor, dispatching
`mouseleave` (which runs only `handleMouseUp`) differs from dispatching
`mouseup` (which first runs the capture-phase `handlePanEnd`): the former
keeps the pan anchor, the latter clears it. -/
theorem mouseLeave_ne_mouseUp_on_pan :
    dispatchMouseLeave "p1" panningState ≠ dispatchMouseUp "p1" panningState := by
  intro h
  have hp := congrArg AnnotState.panStart h
  simp [dispatchMouseLeave, dispatchMouseUp, handleMouseUp, handlePanEnd,
    panningState, idleState] at hp

/-- C4 (amended): mouse-leave runs the same drawing handler as button-up, so a
mouse-leave during DRAWING finalizes or discards the draft exactly as
primary-up does (on any state with no active pan the two dispatches coincide);
but mouse-leave does NOT end a pan: it leaves the pan anchor unchanged, while
button-up always clears it. -/
theorem mouseLeave_vs_mouseUp (freshId : String) (s : AnnotState) :
    (s.panStart = none →
      dispatchMouseLeave freshId s = dispatchMouseUp freshId s) ∧
    (dispatchMouseLeave freshId s).panStart = s.panStart ∧
    (dispatchMouseUp freshId s).panStart = none := by
  rcases s with ⟨sc, ps, po, isd, dst, cr, sp, ss, isel, pend, poss⟩
  refine ⟨?_, ?_, ?_⟩
  · intro h
    dsimp only at h
    subst h
    rfl
  · cases isd <;> cases cr <;> cases dst <;>
      simp [dispatchMouseLeave, handleMouseUp]
  · cases isd <;> cases cr <;> cases dst <;>
      simp [dispatchMouseUp, handleMouseUp, handlePanEnd]

/-- Witness for `mouseLeave_vs_mouseUp` at the initial (pan-free) state. -/
theorem mouseLeave_vs_mouseUp_witness :
    idleState.panStart = none ∧
    dispatchMouseLeave "p1" idleState = dispatchMouseUp "p1" idleState :=
  ⟨rfl, (mouseLeave_vs_mouseUp "p1" idleState).1 rfl⟩

/-- C3: during DRAWING, a pointer move at image point
`p = ((cx - ir.x)/scale, (cy - ir.y)/scale)` recomputes the candidate box as
the axis-aligned bounding box of `drawStart` and `p` (`x = min`, `y = min`,
`width = |dx|`, `height = |dy|`, both non-negative, tagged with the selected
shape); on primary-up, a new position carrying exactly the candidate box and
the selected shape is appended to the committed list iff `width > 5` and
`height > 5`, otherwise the list is unchanged. -/
theorem draw_candidate_and_commit (s : AnnotState) (ir ds : Point)
    (cx cy : ℚ) (freshId : String) (r : Position) :
    (s.isDrawing = true → s.drawStart = some ds →
      (handleMouseMove s (some ir) cx cy).currentRect = some {
        id := "temp",
        x := min ds.x ((cx - ir.x) / s.scale),
        y := min ds.y ((cy - ir.y) / s.scale),
        width := |(cx - ir.x) / s.scale - ds.x|,
        height := |(cy - ir.y) / s.scale - ds.y|,
        shape := s.selectedShape } ∧
      (0 : ℚ) ≤ |(cx - ir.x) / s.scale - ds.x| ∧
      (0 : ℚ) ≤ |(cy - ir.y) / s.scale - ds.y|) ∧
    (s.isDrawing = true → s.currentRect = some r → s.drawStart = some ds →
      ((r.width > 5 ∧ r.height > 5) →
        (handleMouseUp freshId s).positions = s.positions ++
          [{ id := freshId, x := r.x, y := r.y, width := r.width,
             height := r.height, shape := s.selectedShape }]) ∧
      (¬(r.width > 5 ∧ r.height > 5) →
        (handleMouseUp freshId s).positions = s.positions)) := by
  constructor
  · intro h1 h2
    refine ⟨?_, abs_nonneg _, abs_nonneg _⟩
    simp [handleMouseMove, h1, h2, getImageCoordinates]
  · intro h1 h3 h2
    constructor
    · intro hsize
      simp [handleMouseUp, h1, h2, h3, if_pos hsize]
    · intro hsize
      simp [handleMouseUp, h1, h2, h3, if_neg hsize]

/-- Witness for `draw_candidate_and_commit`: a draw started at `(10, 10)` with
the pointer at `(5, 5)` yields the normalized candidate `{x:5, y:5, width:5,
height:5}`, and a candidate failing the `> 5` threshold is discarded. -/
theorem draw_candidate_and_commit_witness :
    (handleMouseMove drawingState (some ⟨0, 0⟩) 5 5).currentRect =
      some { id := "temp", x := 5, y := 5, width := 5, height := 5,
             shape := .RECTANGLE } ∧
    (handleMouseUp "p1" drawingState).positions = drawingState.positions := by
  have h := draw_candidate_and_commit drawingState ⟨0, 0⟩ ⟨10, 10⟩ 5 5 "p1"
    { id := "temp", x := 5, y := 5, width := 5, height := 5, shape := .RECTANGLE }
  constructor
  · rw [(h.1 rfl rfl).1]
    norm_num [drawingState, idleState, min_def, abs_of_nonpos]
  · exact ((h.2 rfl rfl rfl).2) (by norm_num)

/-- C5: on a primary-button press at image point
`pt = ((cx - ir.x)/scale, (cy - ir.y)/scale)`, if some committed position's
box contains `pt` (inclusive bounds), the handler selects the FIRST such
position in list order (setting `selectedPosition` to its id, touching nothing
else, in particular starting no draw); a draw gesture starts only when no
position's box contains `pt`. -/
theorem mousedown_selects_first_hit (s : AnnotState) (ir pt : Point)
    (cx cy : ℚ)
    (hpt : pt = ⟨(cx - ir.x) / s.scale, (cy - ir.y) / s.scale⟩) :
    ((∃ pos ∈ s.positions, containsPoint pos pt = true) →
      ∃ pos l₁ l₂, s.positions = l₁ ++ pos :: l₂ ∧
        containsPoint pos pt = true ∧
        (∀ q ∈ l₁, containsPoint q pt = false) ∧
        handleMouseDown s (some ir) 0 cx cy =
          { s with selectedPosition := some pos.id }) ∧
    ((∀ pos ∈ s.positions, containsPoint pos pt = false) →
      handleMouseDown s (some ir) 0 cx cy =
        { s with isDrawing := true, drawStart := some pt,
                 selectedPosition := none }) := by
  have hgic : getImageCoordinates (some ir) s.scale cx cy = some pt := by
    rw [hpt]; rfl
  constructor
  · intro hex
    have hsome : (s.positions.find? (fun pos => containsPoint pos pt)).isSome :=
      List.find?_isSome.mpr (by
        obtain ⟨pos, hmem, hc⟩ := hex
        exact ⟨pos, hmem, hc⟩)
    obtain ⟨pos, hfind⟩ := Option.isSome_iff_exists.mp hsome
    obtain ⟨hp, as, bs, hsplit, hprev⟩ := List.find?_eq_some.mp hfind
    refine ⟨pos, as, bs, hsplit, hp, ?_, ?_⟩
    · intro q hq
      have := hprev q hq
      simpa using this
    · simp [handleMouseDown, hgic, hfind]
  · intro hall
    have hnone : s.positions.find? (fun pos => containsPoint pos pt) = none :=
      List.find?_eq_none.mpr (fun x hx => by simp [hall x hx])
    simp [handleMouseDown, hgic, hnone]

/-- Witness for `mousedown_selects_first_hit`: in `delState` (positions
`posA`, `posB`), a click at image point `(5, 5)` hits `posA` and selects it. -/
theorem mousedown_selects_first_hit_witness :
    (∃ pos ∈ delState.positions, containsPoint pos ⟨5, 5⟩ = true) ∧
    (∃ pos l₁ l₂, delState.positions = l₁ ++ pos :: l₂ ∧
      containsPoint pos ⟨5, 5⟩ = true ∧
      (∀ q ∈ l₁, containsPoint q ⟨5, 5⟩ = false) ∧
      handleMouseDown delState (some ⟨0, 0⟩) 0 5 5 =
        { delState with selectedPosition := some pos.id }) := by
  have hex : ∃ pos ∈ delState.positions, containsPoint pos ⟨5, 5⟩ = true :=
    ⟨posA, by simp [delState, idleState], by norm_num [containsPoint, posA]⟩
  have h := mousedown_selects_first_hit delState ⟨0, 0⟩ ⟨5, 5⟩ 5 5
    (by norm_num [delState, idleState, Point.mk.injEq])
  exact ⟨hex, h.1 hex⟩

/-- In a list of positions with pairwise-distinct ids, filtering out the id of
a member `tgt` removes exactly that entry and keeps all others in order. -/
theorem filter_ne_id_split (l : List Position) (sel : String)
    (hdist : l.Pairwise (fun p q => p.id ≠ q.id)) (tgt : Position)
    (htgt : tgt ∈ l) (hid : tgt.id = sel) :
    ∃ l₁ l₂, l = l₁ ++ tgt :: l₂ ∧
      l.filter (fun p => p.id != sel) = l₁ ++ l₂ := by
  induction l with
  | nil => cases htgt
  | cons a l ih =>
    rcases List.pairwise_cons.mp hdist with ⟨ha, hl⟩
    rcases List.mem_cons.mp htgt with rfl | hmem
    · refine ⟨[], l, rfl, ?_⟩
      have hfa : (tgt.id != sel) = false := by simp [hid]
      rw [List.filter_cons, hfa]
      simp only [Bool.false_eq_true, if_false, List.nil_append]
      apply List.filter_eq_self.mpr
      intro p hp
      simp only [bne_iff_ne, ne_eq, ← hid]
      exact fun h => (ha p hp) h.symm
    · obtain ⟨l₁, l₂, rfl, hfilter⟩ := ih hl hmem
      have hne : (a.id != sel) = true := by
        simp only [bne_iff_ne, ne_eq, ← hid]
        exact ha tgt hmem
      exact ⟨a :: l₁, l₂, rfl, by simp [List.filter_cons, hne, hfilter]⟩

/-- C6: with pairwise-distinct ids and the selection's id present in the list,
a Delete/Backspace keypress removes exactly the entry whose id equals the
selection, keeps every other entry in its original relative order, and clears
the selection; with no selection the list is unchanged. -/
theorem delete_removes_selected (s : AnnotState) (key : Key)
    (hkey : key = Key.Delete ∨ key = Key.Backspace)
    (hdist : s.positions.Pairwise (fun p q => p.id ≠ q.id)) :
    (∀ sel tgt, s.selectedPosition = some sel → tgt ∈ s.positions →
      tgt.id = sel →
      ∃ l₁ l₂, s.positions = l₁ ++ tgt :: l₂ ∧
        (handleKeyDown s key).positions = l₁ ++ l₂ ∧
        (handleKeyDown s key).selectedPosition = none) ∧
    (s.selectedPosition = none →
      (handleKeyDown s key).positions = s.positions ∧
      (handleKeyDown s key).selectedPosition = none) := by
  rcases hkey with rfl | rfl
  all_goals
    refine ⟨fun sel tgt hsel htgt hid => ?_, fun hsel =>
      ⟨by simp [handleKeyDown, hsel], by simp [handleKeyDown, hsel]⟩⟩
  all_goals
    obtain ⟨l₁, l₂, hsplit, hfilter⟩ :=
      filter_ne_id_split s.positions sel hdist tgt htgt hid
  all_goals
    exact ⟨l₁, l₂, hsplit, by simp [handleKeyDown, hsel, hfilter],
      by simp [handleKeyDown, hsel]⟩

/-- Witness for `delete_removes_selected`: deleting with `posB` selected in
`delState` removes exactly `posB` and clears the selection. -/
theorem delete_removes_selected_witness :
    ∃ l₁ l₂, delState.positions = l₁ ++ posB :: l₂ ∧
      (handleKeyDown delState .Delete).positions = l₁ ++ l₂ ∧
      (handleKeyDown delState .Delete).selectedPosition = none :=
  (delete_removes_selected delState .Delete (Or.inl rfl) (by decide)).1
    "b" posB rfl (by simp [delState, idleState]) rfl

/-- If a member `a` satisfies `p` and every other element of the list fails
`p`, then `find?` returns `a`. -/
theorem find?_eq_some_of_unique {α : Type} (l : List α) (p : α → Bool) (a : α)
    (ha : a ∈ l) (hpa : p a = true)
    (huniq : ∀ b ∈ l, b ≠ a → p b = false) :
    l.find? p = some a := by
  induction l with
  | nil => cases ha
  | cons c l ih =>
    by_cases hc : c = a
    · subst hc
      exact List.find?_cons_of_pos _ hpa
    · have hpc : p c = false := huniq c (List.mem_cons_self c l) hc
      rw [List.find?_cons_of_neg _ (by simp [hpc])]
      refine ih ?_ ?_
      · rcases List.mem_cons.mp ha with rfl | h
        · exact absurd rfl hc
        · exact h
      · exact fun b hb hba => huniq b (List.mem_cons_of_mem _ hb) hba

/-- C9: for distinct committed positions `A` (with overlay filename `f`) and
`B`, when no other position's filename link targets `A` or `B`: entering link
mode with `A` selected (`handleToggleFileName`) and then clicking `B` sets
`A.showFileName := true` and `A.fileNamePositionId := B.id`, after which the
displayed filename resolved for `B.id` is `f` and the one resolved for `A.id`
is null (the filename moves to `B`; no self-display on `A`). -/
theorem link_resolution (s : AnnotState) (A B : Position) (f : String)
    (hdist : s.positions.Pairwise (fun p q => p.id ≠ q.id))
    (hA : A ∈ s.positions) (hB : B ∈ s.positions) (hAB : A.id ≠ B.id)
    (hf : A.overlayFileName = some f) (hf0 : f ≠ "")
    (hAshow : A.showFileName = false)
    (hsel : s.selectedPosition = some A.id)
    (hno : ∀ q ∈ s.positions, q.id ≠ A.id → q.showFileName = true →
      q.fileNamePositionId ≠ some A.id ∧ q.fileNamePositionId ≠ some B.id) :
    getLinkedFileName
      (handlePositionClick (handleToggleFileName s) B.id).positions B.id
      = some f ∧
    getLinkedFileName
      (handlePositionClick (handleToggleFileName s) B.id).positions A.id
      = none := by
  have hsymm : Symmetric (fun p q : Position => p.id ≠ q.id) :=
    fun _ _ h => Ne.symm h
  have hidinj : ∀ b ∈ s.positions, b ≠ A → b.id ≠ A.id :=
    fun b hb hbA => (List.Pairwise.forall hsymm hdist) hb hA hbA
  have hfindA : s.positions.find? (fun p => p.id == A.id) = some A := by
    apply find?_eq_some_of_unique _ _ _ hA (by simp)
    intro b hb hbA
    simp only [beq_eq_false_iff_ne, ne_eq]
    exact hidinj b hb hbA
  have hs1 : handleToggleFileName s =
      { s with isSelectingFileNamePosition := true,
               pendingFileNameLinkId := some A.id } := by
    simp [handleToggleFileName, hsel, hfindA, hAshow]
  have hs2 : (handlePositionClick (handleToggleFileName s) B.id).positions =
      s.positions.map (fun pos =>
        if pos.id == A.id
        then { pos with showFileName := true,
                        fileNamePositionId := some B.id }
        else pos) := by
    rw [hs1]
    rfl
  have hupdA : (fun pos =>
      if pos.id == A.id
      then { pos with showFileName := true,
                      fileNamePositionId := some B.id }
      else pos) A =
      { A with showFileName := true, fileNamePositionId := some B.id } := by
    simp
  have hmemA' : ({ A with showFileName := true, fileNamePositionId := some B.id } : Position) ∈
      s.positions.map (fun pos =>
        if pos.id == A.id
        then { pos with showFileName := true,
                        fileNamePositionId := some B.id }
        else pos) := by
    rw [← hupdA]
    exact List.mem_map_of_mem _ hA
  have hfindB : (s.positions.map (fun pos =>
      if pos.id == A.id
      then { pos with showFileName := true,
                      fileNamePositionId := some B.id }
      else pos)).find? (fun p =>
        p.showFileName && (p.fileNamePositionId == some B.id) &&
        strTruthy p.overlayFileName) =
      some { A with showFileName := true,
                    fileNamePositionId := some B.id } := by
    apply find?_eq_some_of_unique _ _ _ hmemA'
    · simp [strTruthy, hf, hf0]
    · intro c hc hcA'
      obtain ⟨b, hb, rfl⟩ := List.mem_map.mp hc
      by_cases hbid : b.id = A.id
      · have hbA : b = A := by
          by_contra hne
          exact (hidinj b hb hne) hbid
        subst hbA
        exact absurd hupdA hcA'
      · have hub : (if b.id == A.id
            then { b with showFileName := true,
                          fileNamePositionId := some B.id }
            else b) = b := by
          simp [hbid]
        rw [hub]
        cases hsf : b.showFileName
        · simp [hsf]
        · have hlink := (hno b hb hbid hsf).2
          simp [hsf, hlink]
  have hfindAnone : (s.positions.map (fun pos =>
      if pos.id == A.id
      then { pos with showFileName := true,
                      fileNamePositionId := some B.id }
      else pos)).find? (fun p =>
        p.showFileName && (p.fileNamePositionId == some A.id) &&
        strTruthy p.overlayFileName) = none := by
    apply List.find?_eq_none.mpr
    intro c hc
    obtain ⟨b, hb, rfl⟩ := List.mem_map.mp hc
    by_cases hbid : b.id = A.id
    · have hbA : b = A := by
        by_contra hne
        exact (hidinj b hb hne) hbid
      subst hbA
      simp [Ne.symm hAB]
    · have hub : (if b.id == A.id
          then { b with showFileName := true,
                        fileNamePositionId := some B.id }
          else b) = b := by
        simp [hbid]
      rw [hub]
      cases hsf : b.showFileName
      · simp [hsf]
      · have hlink := (hno b hb hbid hsf).1
        simp [hsf, hlink]
  constructor
  · rw [hs2]
    unfold getLinkedFileName
    rw [hfindB]
    simp [orNull, hf, hf0]
  · rw [hs2]
    unfold getLinkedFileName
    rw [hfindAnone]
    rfl

/-- Witness for `link_resolution`: in `linkState` (`posA` with overlay
`photo.png` selected, `posB` present), toggling the filename link and clicking
`posB` makes `photo.png` resolve at `posB` and nothing resolve at `posA`. -/
theorem link_resolution_witness :
    getLinkedFileName
      (handlePositionClick (handleToggleFileName linkState) posB.id).positions
      posB.id = some "photo.png" ∧
    getLinkedFileName
      (handlePositionClick (handleToggleFileName linkState) posB.id).positions
      posA.id = none :=
  link_resolution linkState posA posB "photo.png"
    (by decide)
    (by simp [linkState, idleState])
    (by simp [linkState, idleState])
    (by decide)
    rfl
    (by decide)
    rfl
    rfl
    (by decide)
